import Mathlib

/-!
Shallow embedding of the client-side pre-submission pipeline:
  - `src/client/src/lib/client-encryption.ts` (sensitive-field codec)
  - `src/client/src/lib/signature-service.ts` (signature evidence recorder)

JavaScript strings handled by the codec are modelled as lists of Unicode
code points (`List Nat`); a lone surrogate (the one input class on which
`encodeURIComponent` throws) is representable as a code point in
`0xD800 ... 0xDFFF`.  The signature service works over Lean `String`s.
Browser collaborators (clock, `navigator`, `screen`, `crypto.subtle`) are
passed in explicitly; `console.error` diagnostics are modelled as a list of
log messages returned next to each result.
-/

namespace Backup

/-- Code points of a Lean string literal, used to write concrete JS strings. -/
def str (s : String) : List Nat := s.toList.map Char.toNat

/-! ### client-encryption.ts : primitive collaborators

`encodeForTransmission` is `btoa(encodeURIComponent(data))` and
`decodeFromTransmission` is `decodeURIComponent(atob(encoded))`, each wrapped
in a `try`/`catch` that falls back to the input.  The four browser builtins
are embedded below, following their ECMAScript / WHATWG specifications.
-/

/-- Characters `encodeURIComponent` leaves unescaped:
`A-Z a-z 0-9 - _ . ! ~ * ' ( )`. -/
def unreservedCode (n : Nat) : Bool :=
  (65 ≤ n && n ≤ 90) || (97 ≤ n && n ≤ 122) || (48 ≤ n && n ≤ 57) ||
  n == 45 || n == 95 || n == 46 || n == 33 || n == 126 || n == 42 ||
  n == 39 || n == 40 || n == 41

/-- A Unicode scalar value: any code point except the surrogate range.
`encodeURIComponent` throws a `URIError` exactly on lone surrogates. -/
def scalarValue (n : Nat) : Bool :=
  n < 0x110000 && !(0xD800 ≤ n && n < 0xE000)

/-- UTF-8 bytes of a scalar value. -/
def utf8Encode (n : Nat) : List Nat :=
  if n < 0x80 then [n]
  else if n < 0x800 then [0xC0 + n / 0x40, 0x80 + n % 0x40]
  else if n < 0x10000 then
    [0xE0 + n / 0x1000, 0x80 + n / 0x40 % 0x40, 0x80 + n % 0x40]
  else
    [0xF0 + n / 0x40000, 0x80 + n / 0x1000 % 0x40,
     0x80 + n / 0x40 % 0x40, 0x80 + n % 0x40]

/-- Code of the uppercase hex digit for `d < 16`. -/
def hexDigitUpperCode (d : Nat) : Nat :=
  if d < 10 then 48 + d else 55 + d

/-- `%XX` escape (three characters) of one byte. -/
def percentByte (b : Nat) : List Nat :=
  [37, hexDigitUpperCode (b / 16), hexDigitUpperCode (b % 16)]

/-- `%XX%YY...` escapes of a byte sequence. -/
def expandBytes : List Nat → List Nat
  | [] => []
  | b :: bs => percentByte b ++ expandBytes bs

/-- Encoding of a single character by `encodeURIComponent`: unreserved
characters pass through, everything else becomes percent-escaped UTF-8. -/
def encChar (n : Nat) : List Nat :=
  if unreservedCode n then [n] else expandBytes (utf8Encode n)

/-- The string `encodeURIComponent` produces on an all-scalar input. -/
def encodeSeq : List Nat → List Nat
  | [] => []
  | n :: rest => encChar n ++ encodeSeq rest

/-- `encodeURIComponent`: escapes every character outside the unreserved set
as percent-encoded UTF-8; throws (`none`) on a lone surrogate. -/
def encodeURIComponentOpt : List Nat → Option (List Nat)
  | [] => some []
  | n :: rest =>
    if scalarValue n then
      match encodeURIComponentOpt rest with
      | some t => some (encChar n ++ t)
      | none => none
    else none

/-- Value of a hex digit character, case-insensitive. -/
def hexVal (c : Nat) : Option Nat :=
  if 48 ≤ c ∧ c ≤ 57 then some (c - 48)
  else if 65 ≤ c ∧ c ≤ 70 then some (c - 55)
  else if 97 ≤ c ∧ c ≤ 102 then some (c - 87)
  else none

/-- The byte denoted by two hex digit characters. -/
def escHexByte (h1 h2 : Nat) : Option Nat :=
  match hexVal h1 with
  | none => none
  | some x =>
    match hexVal h2 with
    | none => none
    | some y => some (16 * x + y)

/-- One lexical unit of `decodeURIComponent`'s scan: a character taken
verbatim, or the byte of a `%XX` escape. -/
inductive UriTok : Type
  | raw (c : Nat)
  | esc (b : Nat)
deriving DecidableEq

/-- First phase of `decodeURIComponent`: each `%` must begin a `%XX` hex
escape (else a `URIError`); all other characters are kept verbatim. -/
def uriTokens : List Nat → Option (List UriTok)
  | [] => some []
  | 37 :: h1 :: h2 :: rest =>
    match escHexByte h1 h2 with
    | some b => Option.map (fun ts => UriTok.esc b :: ts) (uriTokens rest)
    | none => none
  | 37 :: _ => none
  | c :: rest => Option.map (fun ts => UriTok.raw c :: ts) (uriTokens rest)

/-- A byte lies in `[lo, hi)`. -/
def inRange (lo hi b : Nat) : Bool :=
  decide (lo ≤ b) && decide (b < hi)

/-- Lower bound for the first continuation byte after a three-byte lead
(`0xE0` forbids overlong forms). -/
def lead3lo (b1 : Nat) : Nat := if b1 = 0xE0 then 0xA0 else 0x80

/-- Upper bound for the first continuation byte after a three-byte lead
(`0xED` forbids surrogates). -/
def lead3hi (b1 : Nat) : Nat := if b1 = 0xED then 0xA0 else 0xC0

/-- Lower bound for the first continuation byte after a four-byte lead
(`0xF0` forbids overlong forms). -/
def lead4lo (b1 : Nat) : Nat := if b1 = 0xF0 then 0x90 else 0x80

/-- Upper bound for the first continuation byte after a four-byte lead
(`0xF4` caps code points at `0x10FFFF`). -/
def lead4hi (b1 : Nat) : Nat := if b1 = 0xF4 then 0x90 else 0xC0

/-- State of the incremental UTF-8 assembler: between sequences, or inside
one with 1, 2 or 3 continuation bytes still expected.  `acc` is the partial
code point (Horner form), `lo`/`hi` bound the next continuation byte. -/
inductive UtfState : Type
  | clean
  | need1 (acc lo hi : Nat)
  | need2 (acc lo hi : Nat)
  | need3 (acc lo hi : Nat)
deriving DecidableEq

/-- Second phase of `decodeURIComponent`, one token at a time: verbatim
characters pass through between sequences; an escape byte is a pass-through
ASCII byte, a sequence lead, or the expected continuation; everything else
(stray or missing continuation, overlong form, surrogate, value beyond
`0x10FFFF`) throws (`none`). -/
def uriAssembleGo : UtfState → List UriTok → Option (List Nat)
  | UtfState.clean, [] => some []
  | UtfState.clean, UriTok.raw c :: rest =>
    Option.map (fun t => c :: t) (uriAssembleGo UtfState.clean rest)
  | UtfState.clean, UriTok.esc b :: rest =>
    if b < 0x80 then
      Option.map (fun t => b :: t) (uriAssembleGo UtfState.clean rest)
    else if b < 0xC2 then none
    else if b < 0xE0 then
      uriAssembleGo (UtfState.need1 (b - 0xC0) 0x80 0xC0) rest
    else if b < 0xF0 then
      uriAssembleGo (UtfState.need2 (b - 0xE0) (lead3lo b) (lead3hi b)) rest
    else if b < 0xF5 then
      uriAssembleGo (UtfState.need3 (b - 0xF0) (lead4lo b) (lead4hi b)) rest
    else none
  | UtfState.need1 acc lo hi, UriTok.esc b :: rest =>
    if inRange lo hi b then
      Option.map (fun t => (acc * 0x40 + (b - 0x80)) :: t)
        (uriAssembleGo UtfState.clean rest)
    else none
  | UtfState.need2 acc lo hi, UriTok.esc b :: rest =>
    if inRange lo hi b then
      uriAssembleGo (UtfState.need1 (acc * 0x40 + (b - 0x80)) 0x80 0xC0) rest
    else none
  | UtfState.need3 acc lo hi, UriTok.esc b :: rest =>
    if inRange lo hi b then
      uriAssembleGo (UtfState.need2 (acc * 0x40 + (b - 0x80)) 0x80 0xC0) rest
    else none
  | _, _ => none

/-- Second phase of `decodeURIComponent`, starting between sequences. -/
def uriAssemble (ts : List UriTok) : Option (List Nat) :=
  uriAssembleGo UtfState.clean ts

/-- `decodeURIComponent`: scan the `%XX` escapes, then decode escape-byte
runs as UTF-8; any malformed input throws (`none`). -/
def decodeURIComponentOpt (s : List Nat) : Option (List Nat) :=
  (uriTokens s).bind uriAssemble

/-- The tokens produced by scanning the encoding of one character. -/
def encToks (n : Nat) : List UriTok :=
  if unreservedCode n then [UriTok.raw n]
  else (utf8Encode n).map UriTok.esc

/-- The tokens produced by scanning the encoding of a string. -/
def encToksSeq : List Nat → List UriTok
  | [] => []
  | n :: rest => encToks n ++ encToksSeq rest

/-- Character of base64 alphabet index `i < 64`. -/
def b64Code (i : Nat) : Nat :=
  if i < 26 then 65 + i
  else if i < 52 then 97 + (i - 26)
  else if i < 62 then 48 + (i - 52)
  else if i = 62 then 43
  else 47

/-- Base64 of a byte list, with `=` (code 61) padding. -/
def base64Encode : List Nat → List Nat
  | [] => []
  | [a] => [b64Code (a / 4), b64Code (a % 4 * 16), 61, 61]
  | [a, b] =>
    [b64Code (a / 4), b64Code (a % 4 * 16 + b / 16), b64Code (b % 16 * 4), 61]
  | a :: b :: c :: rest =>
    b64Code (a / 4) :: b64Code (a % 4 * 16 + b / 16) ::
    b64Code (b % 16 * 4 + c / 64) :: b64Code (c % 64) :: base64Encode rest

/-- `btoa`: throws (`none`) when a character is above `0xFF`, otherwise
base64-encodes the character codes as bytes. -/
def btoaOpt (s : List Nat) : Option (List Nat) :=
  if s.all (fun c => decide (c < 256)) then some (base64Encode s) else none

/-- Base64 alphabet index of a character, `none` outside the alphabet. -/
def b64Index (c : Nat) : Option Nat :=
  if 65 ≤ c ∧ c ≤ 90 then some (c - 65)
  else if 97 ≤ c ∧ c ≤ 122 then some (c - 97 + 26)
  else if 48 ≤ c ∧ c ≤ 57 then some (c - 48 + 52)
  else if c = 43 then some 62
  else if c = 47 then some 63
  else none

/-- Whether a code is ASCII whitespace in the forgiving-base64 sense. -/
def b64Whitespace (c : Nat) : Bool :=
  c == 9 || c == 10 || c == 12 || c == 13 || c == 32

/-- Drop one trailing `=` (code 61), if present. -/
def dropPad1 (t : List Nat) : List Nat :=
  if t.getLast? = some 61 then t.dropLast else t

/-- Drop up to two trailing `=` characters. -/
def stripPad (t : List Nat) : List Nat := dropPad1 (dropPad1 t)

/-- Decode a whitespace-free, unpadded base64 string in groups of four
sextets; a trailing group of one character fails, trailing groups of two or
three yield one or two bytes with the leftover bits discarded. -/
def atobCore : List Nat → Option (List Nat)
  | [] => some []
  | [_] => none
  | [c1, c2] =>
    match b64Index c1, b64Index c2 with
    | some x, some y => some [x * 4 + y / 16]
    | _, _ => none
  | [c1, c2, c3] =>
    match b64Index c1, b64Index c2, b64Index c3 with
    | some x, some y, some z => some [x * 4 + y / 16, y % 16 * 16 + z / 4]
    | _, _, _ => none
  | c1 :: c2 :: c3 :: c4 :: rest =>
    match b64Index c1, b64Index c2, b64Index c3, b64Index c4 with
    | some x, some y, some z, some w =>
      match atobCore rest with
      | some bs => some ((x * 4 + y / 16) :: (y % 16 * 16 + z / 4) ::
          (z % 4 * 64 + w) :: bs)
      | none => none
    | _, _, _, _ => none

/-- `atob` (WHATWG forgiving-base64 decode): strip ASCII whitespace; when the
length is a multiple of four remove up to two trailing `=` characters; then
decode, failing (`none`) on a leftover single character or any character
outside the alphabet. -/
def atobOpt (s : List Nat) : Option (List Nat) :=
  let t := s.filter (fun c => !b64Whitespace c)
  atobCore (if t.length % 4 = 0 then stripPad t else t)

/-! ### client-encryption.ts : exported functions -/

/-- The body of the `try` block of `encodeForTransmission`:
`btoa(encodeURIComponent(data))`. -/
def tryEncode (data : List Nat) : Option (List Nat) :=
  (encodeURIComponentOpt data).bind btoaOpt

/-- The body of the `try` block of `decodeFromTransmission`:
`decodeURIComponent(atob(encoded))`. -/
def tryDecode (encoded : List Nat) : Option (List Nat) :=
  (atobOpt encoded).bind decodeURIComponentOpt

/-- `encodeForTransmission` with its `console.error` output: empty input
returns the empty string; otherwise the encoded value, or on an exception the
original input next to the logged diagnostic. -/
def encodeForTransmissionLog (data : List Nat) : List Nat × List String :=
  if data = [] then ([], [])
  else
    match tryEncode data with
    | some r => (r, [])
    | none => (data, ["[CLIENT_ENCRYPTION] Failed to encode data for transmission"])

/-- `encodeForTransmission`: the returned string. -/
def encodeForTransmission (data : List Nat) : List Nat :=
  (encodeForTransmissionLog data).1

/-- `decodeFromTransmission` with its `console.error` output. -/
def decodeFromTransmissionLog (encoded : List Nat) : List Nat × List String :=
  if encoded = [] then ([], [])
  else
    match tryDecode encoded with
    | some r => (r, [])
    | none => (encoded, ["[CLIENT_ENCRYPTION] Failed to decode data"])

/-- `decodeFromTransmission`: the returned string. -/
def decodeFromTransmission (encoded : List Nat) : List Nat :=
  (decodeFromTransmissionLog encoded).1

/-- ASCII digit character. -/
def isDigitCode (c : Nat) : Bool :=
  decide (48 ≤ c) && decide (c ≤ 57)

/-- `cleanSSN`: `ssn.replace(/\D/g, '')` behind an empty-input guard. -/
def cleanSSN (ssn : List Nat) : List Nat :=
  if ssn = [] then [] else ssn.filter isDigitCode

/-- The regular expression `/^(\d)\1{8}$/`: exactly nine characters, the
first a digit and the rest equal to it. -/
def repeatedNine (l : List Nat) : Bool :=
  match l with
  | [] => false
  | d :: rest => isDigitCode d && decide (l.length = 9) && rest.all (fun c => c == d)

/-- Result record of `encodeSSNForTransmission`: `{ encoded, error? }`. -/
structure SSNResult where
  encoded : List Nat
  error : Option String
deriving DecidableEq

/-- `encodeSSNForTransmission`: empty input, then length-after-cleaning, then
repeated-digit validation; on success the cleaned SSN is encoded. -/
def encodeSSNForTransmission (ssn : List Nat) : SSNResult :=
  if ssn = [] then ⟨[], some "SSN is required"⟩
  else
    let cleaned := cleanSSN ssn
    if cleaned.length ≠ 9 then ⟨[], some "SSN must be 9 digits"⟩
    else if repeatedNine cleaned then ⟨[], some "Invalid SSN format"⟩
    else ⟨encodeForTransmission cleaned, none⟩

/-- ASCII lowercasing of one code (`String.prototype.toLowerCase`; the field
names involved are ASCII). -/
def lowerCode (c : Nat) : Nat :=
  if 65 ≤ c ∧ c ≤ 90 then c + 32 else c

/-- ASCII lowercasing of a string. -/
def lowerCodes (s : List Nat) : List Nat := s.map lowerCode

/-- `needle` equals the first characters of `hay`. -/
def leadsWith : List Nat → List Nat → Bool
  | [], _ => true
  | _ :: _, [] => false
  | a :: as, b :: bs => a == b && leadsWith as bs

/-- `String.prototype.includes`: `needle` occurs contiguously in `hay`. -/
def occursIn (needle : List Nat) : List Nat → Bool
  | [] => leadsWith needle []
  | c :: t => leadsWith needle (c :: t) || occursIn needle t

/-- `SENSITIVE_FIELDS`. -/
def SENSITIVE_FIELDS : List (List Nat) :=
  [str "ssn", str "socialSecurityNumber", str "dateOfBirth"]

/-- `isSensitiveField`: some sensitive name is contained, case-insensitively,
in the field name. -/
def isSensitiveField (fieldName : List Nat) : Bool :=
  SENSITIVE_FIELDS.any (fun name =>
    occursIn (lowerCodes name) (lowerCodes fieldName))

/-! ### signature-service.ts -/

/-- `SignatureMetadata`. -/
structure SignatureMetadata where
  timestamp : String
  ipAddress : String
  userAgent : String
  screenResolution : String
  timezone : String
  consentGiven : Bool
  signatureValue : String
  signatureHash : String
  deviceFingerprint : String
deriving DecidableEq

/-- The ambient browser collaborators read by `captureSignatureMetadata`:
the clock (`new Date()`), `navigator`, `window.screen` and
`Intl.DateTimeFormat`. -/
structure BrowserEnv where
  nowISO : String
  userAgent : String
  screenWidth : Nat
  screenHeight : Nat
  timezone : String
  language : String
  platform : String
  tzOffsetMinutes : Int

/-- A digest collaborator: `TextEncoder` plus `crypto.subtle.digest`, which
either yields the digest bytes or fails (`none`). -/
def DigestFn : Type := String → Option (List Nat)

/-- Lowercase hex digits, as produced by `Number.prototype.toString(16)`. -/
def hexDigitsLower : List String :=
  ["0", "1", "2", "3", "4", "5", "6", "7", "8", "9", "a", "b", "c", "d", "e", "f"]

/-- `b.toString(16).padStart(2, '0')` for a byte. -/
def byteToHex (b : Nat) : String :=
  hexDigitsLower.getD (b / 16) "0" ++ hexDigitsLower.getD (b % 16) "0"

/-- Hex string of a digest byte sequence. -/
def bytesToHex (bytes : List Nat) : String :=
  String.join (bytes.map byteToHex)

/-- `hashString` with its `console.error` output: hex-encodes the digest of
the data, or returns the sentinel `"unknown"` next to a logged diagnostic
when the digest primitive fails. -/
def hashString (digest : DigestFn) (data : String) : String × List String :=
  match digest data with
  | some bytes => (bytesToHex bytes, [])
  | none => ("unknown", ["[SIGNATURE] Hash failed:"])

/-- `value || 'unknown'` on a string. -/
def orUnknown (s : String) : String :=
  if s = "" then "unknown" else s

/-- `generateDeviceFingerprint`:
`[language, platform, timezoneOffset, screenArea].join('|')`. -/
def generateDeviceFingerprint (env : BrowserEnv) : String :=
  orUnknown env.language ++ "|" ++ orUnknown env.platform ++ "|" ++
  toString env.tzOffsetMinutes ++ "|" ++
  toString (env.screenWidth * env.screenHeight)

/-- `captureSignatureMetadata` with its `console.error` output: reads the
instant and environment, hashes `signatureValue + timestamp`, and assembles
the record with `consentGiven = true` and an empty `ipAddress`. -/
def captureSignatureMetadata (env : BrowserEnv) (digest : DigestFn)
    (signatureValue : String) : SignatureMetadata × List String :=
  let timestamp := env.nowISO
  let userAgent := env.userAgent
  let screenResolution :=
    toString env.screenWidth ++ "x" ++ toString env.screenHeight
  let timezone := env.timezone
  let hashed := hashString digest (signatureValue ++ timestamp)
  let deviceFingerprint := generateDeviceFingerprint env
  (⟨timestamp, "", userAgent, screenResolution, timezone, true,
    signatureValue, hashed.1, deviceFingerprint⟩, hashed.2)

/-- `validateSignatureMetadata`: collects the five completeness failures in
order and reports validity as emptiness of the error list. -/
def validateSignatureMetadata (metadata : SignatureMetadata) :
    Bool × List String :=
  let errors : List String :=
    (if metadata.timestamp = "" then ["Timestamp missing"] else []) ++
    (if metadata.userAgent = "" then ["User agent missing"] else []) ++
    (if metadata.signatureValue = "" ∨ metadata.signatureValue.length < 2 then
      ["Signature value invalid"] else []) ++
    (if metadata.consentGiven = false then ["Consent not given"] else []) ++
    (if metadata.signatureHash = "" then ["Signature hash missing"] else [])
  (errors.isEmpty, errors)

/-- `String.prototype.trim`: drop whitespace from both ends. -/
def jsTrim (s : String) : String :=
  ⟨((s.data.dropWhile Char.isWhitespace).reverse.dropWhile
      Char.isWhitespace).reverse⟩

/-- `formatSignatureMetadata`: the trimmed audit-trail template. -/
def formatSignatureMetadata (metadata : SignatureMetadata) : String :=
  jsTrim <|
  ("\nSignature Metadata (ESIGN Act Compliance)\n" ++
   "==========================================\n" ++
   "Signed By: " ++ metadata.signatureValue ++ "\n" ++
   "Timestamp: " ++ metadata.timestamp ++ "\n" ++
   "Time Zone: " ++ metadata.timezone ++ "\n" ++
   "IP Address: " ++
     (if metadata.ipAddress = "" then "pending" else metadata.ipAddress) ++ "\n" ++
   "Device: " ++ metadata.screenResolution ++ "\n" ++
   "User Agent: " ++ metadata.userAgent ++ "\n" ++
   "Device Fingerprint: " ++ metadata.deviceFingerprint ++ "\n" ++
   "Signature Hash: " ++ metadata.signatureHash ++ "\n" ++
   "Consent Given: " ++ (if metadata.consentGiven then "Yes" else "No") ++
   "\n  ")

/-! ### Helper lemmas -/

theorem encChar_ne_nil (n : Nat) : encChar n ≠ [] := by
  by_cases h : unreservedCode n
  · simp [encChar, h]
  · simp only [encChar, h, if_false, Bool.false_eq_true, utf8Encode]
    split_ifs <;> simp [expandBytes, percentByte]

theorem base64Encode_ne_nil {u : List Nat} (h : u ≠ []) :
    base64Encode u ≠ [] := by
  match u with
  | [] => exact absurd rfl h
  | [a] => simp [base64Encode]
  | [a, b] => simp [base64Encode]
  | a :: b :: c :: rest => simp [base64Encode]

theorem encodeURIComponentOpt_ne_nil {s u : List Nat}
    (h : encodeURIComponentOpt s = some u) (hs : s ≠ []) : u ≠ [] := by
  cases s with
  | nil => exact absurd rfl hs
  | cons n rest =>
    by_cases hn : scalarValue n
    · simp only [encodeURIComponentOpt, hn, if_true] at h
      cases he : encodeURIComponentOpt rest with
      | none => rw [he] at h; exact absurd h (by simp)
      | some t =>
        rw [he] at h
        simp only [Option.some.injEq] at h
        rw [← h]
        simp [encChar_ne_nil n]
    · simp [encodeURIComponentOpt, hn] at h

theorem encodeForTransmission_ne_nil {s : List Nat} (hs : s ≠ []) :
    encodeForTransmission s ≠ [] := by
  unfold encodeForTransmission encodeForTransmissionLog
  rw [if_neg hs]
  cases he : tryEncode s with
  | none => simpa using hs
  | some r =>
    simp only
    unfold tryEncode at he
    cases hu : encodeURIComponentOpt s with
    | none => rw [hu] at he; simp at he
    | some u =>
      rw [hu] at he
      replace he : btoaOpt u = some r := he
      unfold btoaOpt at he
      split_ifs at he with hall
      simp only [Option.some.injEq] at he
      rw [← he]
      exact base64Encode_ne_nil (encodeURIComponentOpt_ne_nil hu hs)

/-! ### Claim theorems -/

/-- C1: `validateSignatureMetadata` collects its failure reasons independently
and in the fixed order given by the master list (the error list is a sublist
of it), each reason is present exactly when its condition holds (empty
timestamp, empty user agent, signature value empty or shorter than two
characters, consent not given, empty signature hash), and the `valid` flag is
`true` exactly when the error list is empty. -/
theorem c1_validate_error_collection (m : SignatureMetadata) :
    ("Timestamp missing" ∈ (validateSignatureMetadata m).2 ↔ m.timestamp = "") ∧
    ("User agent missing" ∈ (validateSignatureMetadata m).2 ↔ m.userAgent = "") ∧
    ("Signature value invalid" ∈ (validateSignatureMetadata m).2 ↔
      (m.signatureValue = "" ∨ m.signatureValue.length < 2)) ∧
    ("Consent not given" ∈ (validateSignatureMetadata m).2 ↔ m.consentGiven = false) ∧
    ("Signature hash missing" ∈ (validateSignatureMetadata m).2 ↔ m.signatureHash = "") ∧
    List.Sublist (validateSignatureMetadata m).2
      ["Timestamp missing", "User agent missing", "Signature value invalid",
       "Consent not given", "Signature hash missing"] ∧
    ((validateSignatureMetadata m).1 = true ↔ (validateSignatureMetadata m).2 = []) := by
  unfold validateSignatureMetadata
  split_ifs <;> (simp_all; try decide)

/-- C2: when the digest collaborator succeeds, `captureSignatureMetadata`
returns a record with `consentGiven = true`, an empty `ipAddress` slot,
`signatureValue` equal to the argument, `timestamp` equal to the instant read
at capture, `signatureHash` the hex-encoded digest of `signatureValue`
concatenated with that timestamp, and `userAgent`, `screenResolution` and
`timezone` taken from the environment collaborator. -/
theorem c2_capture_assembles_record (env : BrowserEnv) (digest : DigestFn)
    (sig : String) (bytes : List Nat)
    (h : digest (sig ++ env.nowISO) = some bytes) :
    (captureSignatureMetadata env digest sig).1.consentGiven = true ∧
    (captureSignatureMetadata env digest sig).1.ipAddress = "" ∧
    (captureSignatureMetadata env digest sig).1.signatureValue = sig ∧
    (captureSignatureMetadata env digest sig).1.timestamp = env.nowISO ∧
    (captureSignatureMetadata env digest sig).1.signatureHash = bytesToHex bytes ∧
    (captureSignatureMetadata env digest sig).1.userAgent = env.userAgent ∧
    (captureSignatureMetadata env digest sig).1.screenResolution =
      toString env.screenWidth ++ "x" ++ toString env.screenHeight ∧
    (captureSignatureMetadata env digest sig).1.timezone = env.timezone := by
  simp [captureSignatureMetadata, hashString, h]

theorem c2_capture_witness :
    ((fun _ => some [0, 255, 16] : DigestFn) ("Jane" ++ "NOW") = some [0, 255, 16]) ∧
    (captureSignatureMetadata ⟨"NOW", "UA", 2, 3, "TZ", "en", "linux", -60⟩
      (fun _ => some [0, 255, 16]) "Jane").1.signatureHash = bytesToHex [0, 255, 16] :=
  ⟨rfl, (c2_capture_assembles_record ⟨"NOW", "UA", 2, 3, "TZ", "en", "linux", -60⟩
    (fun _ => some [0, 255, 16]) "Jane" [0, 255, 16] rfl).2.2.2.2.1⟩

/-- C5: when the digest collaborator fails, `captureSignatureMetadata` still
returns a record (the failure is never raised), its `signatureHash` is the
sentinel `"unknown"`, and an error is logged. -/
theorem c5_digest_failure_fail_open (env : BrowserEnv) (digest : DigestFn)
    (sig : String) (h : digest (sig ++ env.nowISO) = none) :
    (captureSignatureMetadata env digest sig).1.signatureHash = "unknown" ∧
    (captureSignatureMetadata env digest sig).2 = ["[SIGNATURE] Hash failed:"] ∧
    (captureSignatureMetadata env digest sig).1.signatureValue = sig ∧
    (captureSignatureMetadata env digest sig).1.timestamp = env.nowISO ∧
    (captureSignatureMetadata env digest sig).1.consentGiven = true := by
  simp [captureSignatureMetadata, hashString, h]

theorem c5_digest_failure_witness :
    ((fun _ => none : DigestFn) ("Jane" ++ "NOW") = none) ∧
    (captureSignatureMetadata ⟨"NOW", "UA", 2, 3, "TZ", "en", "linux", -60⟩
      (fun _ => none) "Jane").1.signatureHash = "unknown" ∧
    (captureSignatureMetadata ⟨"NOW", "UA", 2, 3, "TZ", "en", "linux", -60⟩
      (fun _ => none) "Jane").2 = ["[SIGNATURE] Hash failed:"] :=
  ⟨rfl,
   (c5_digest_failure_fail_open ⟨"NOW", "UA", 2, 3, "TZ", "en", "linux", -60⟩
     (fun _ => none) "Jane" rfl).1,
   (c5_digest_failure_fail_open ⟨"NOW", "UA", 2, 3, "TZ", "en", "linux", -60⟩
     (fun _ => none) "Jane" rfl).2.1⟩

/-- C6: a record whose `signatureHash` is the sentinel `"unknown"` and whose
other fields satisfy the remaining checks validates as
`valid = true` with no errors: the sentinel passes the digest presence
check. -/
theorem c6_sentinel_hash_passes_validation (m : SignatureMetadata)
    (hh : m.signatureHash = "unknown") (ht : m.timestamp ≠ "")
    (hu : m.userAgent ≠ "") (hs : 2 ≤ m.signatureValue.length)
    (hc : m.consentGiven = true) :
    validateSignatureMetadata m = (true, []) := by
  have h1 : ¬(m.signatureValue = "" ∨ m.signatureValue.length < 2) := by
    rintro (h | h)
    · rw [h] at hs; simp at hs
    · omega
  simp [validateSignatureMetadata, ht, hu, h1, hc, hh]

theorem c6_sentinel_witness :
    validateSignatureMetadata
      ⟨"2024-01-01T00:00:00.000Z", "", "Mozilla", "2x3", "UTC", true,
        "Jane Doe", "unknown", "en|linux|0|6"⟩ = (true, []) :=
  c6_sentinel_hash_passes_validation _ rfl (by decide) (by decide)
    (by decide) rfl

/-- C8: `formatSignatureMetadata` is deterministic: its output depends only
on the fields of its argument, so structurally identical records produce
byte-identical strings. -/
theorem c8_format_deterministic (m₁ m₂ : SignatureMetadata)
    (h1 : m₁.timestamp = m₂.timestamp) (h2 : m₁.ipAddress = m₂.ipAddress)
    (h3 : m₁.userAgent = m₂.userAgent)
    (h4 : m₁.screenResolution = m₂.screenResolution)
    (h5 : m₁.timezone = m₂.timezone) (h6 : m₁.consentGiven = m₂.consentGiven)
    (h7 : m₁.signatureValue = m₂.signatureValue)
    (h8 : m₁.signatureHash = m₂.signatureHash)
    (h9 : m₁.deviceFingerprint = m₂.deviceFingerprint) :
    formatSignatureMetadata m₁ = formatSignatureMetadata m₂ := by
  have hm : m₁ = m₂ := by cases m₁; cases m₂; simp_all
  rw [hm]

theorem c8_format_witness :
    formatSignatureMetadata
      ⟨"T", "", "UA", "2x3", "TZ", true, "Jane", "h", "fp"⟩ =
    formatSignatureMetadata
      ⟨"T", "", "UA", "2x3", "TZ", true, "Jane", "h", "fp"⟩ :=
  c8_format_deterministic _ _ rfl rfl rfl rfl rfl rfl rfl rfl rfl

/-- C9: `isSensitiveField` returns `true` exactly when the lowercased field
name contains one of `ssn`, `socialSecurityNumber` or `dateOfBirth` compared
case-insensitively; in particular it accepts `"SocialSecurityNumber"` and
`"ssn_value"` and rejects `"email"`. -/
theorem c9_sensitive_field_detection (fieldName : List Nat) :
    (isSensitiveField fieldName =
      (occursIn (str "ssn") (lowerCodes fieldName) ||
       occursIn (str "socialsecuritynumber") (lowerCodes fieldName) ||
       occursIn (str "dateofbirth") (lowerCodes fieldName))) ∧
    isSensitiveField (str "SocialSecurityNumber") = true ∧
    isSensitiveField (str "ssn_value") = true ∧
    isSensitiveField (str "email") = false := by
  refine ⟨?_, by decide, by decide, by decide⟩
  have e1 : lowerCodes (str "ssn") = str "ssn" := by decide
  have e2 : lowerCodes (str "socialSecurityNumber") = str "socialsecuritynumber" := by decide
  have e3 : lowerCodes (str "dateOfBirth") = str "dateofbirth" := by decide
  simp [isSensitiveField, SENSITIVE_FIELDS, e1, e2, e3, Bool.or_assoc]

/-- C4: `encodeSSNForTransmission` rejects empty input with
`"SSN is required"`, input whose digit-stripped form is not nine digits long
with `"SSN must be 9 digits"`, nine identical digits with
`"Invalid SSN format"`, and otherwise encodes the digit-stripped input with
no error; an error is present exactly when `encoded` is empty. -/
theorem c4_ssn_pipeline (ssn : List Nat) :
    (ssn = [] → encodeSSNForTransmission ssn = ⟨[], some "SSN is required"⟩) ∧
    (ssn ≠ [] → (cleanSSN ssn).length ≠ 9 →
      encodeSSNForTransmission ssn = ⟨[], some "SSN must be 9 digits"⟩) ∧
    (ssn ≠ [] → (cleanSSN ssn).length = 9 → repeatedNine (cleanSSN ssn) = true →
      encodeSSNForTransmission ssn = ⟨[], some "Invalid SSN format"⟩) ∧
    (ssn ≠ [] → (cleanSSN ssn).length = 9 → repeatedNine (cleanSSN ssn) = false →
      encodeSSNForTransmission ssn =
        ⟨encodeForTransmission (cleanSSN ssn), none⟩) ∧
    ((encodeSSNForTransmission ssn).error.isSome ↔
      (encodeSSNForTransmission ssn).encoded = []) := by
  refine ⟨?_, ?_, ?_, ?_, ?_⟩
  · intro h; simp [encodeSSNForTransmission, h]
  · intro h0 h1; simp [encodeSSNForTransmission, h0, h1]
  · intro h0 h1 h2; simp [encodeSSNForTransmission, h0, h1, h2]
  · intro h0 h1 h2; simp [encodeSSNForTransmission, h0, h1, h2]
  · by_cases h0 : ssn = []
    · simp [encodeSSNForTransmission, h0]
    by_cases h1 : (cleanSSN ssn).length = 9
    · by_cases h2 : repeatedNine (cleanSSN ssn)
      · simp [encodeSSNForTransmission, h0, h1, h2]
      · have hne : cleanSSN ssn ≠ [] := by
          intro hc; rw [hc] at h1; simp at h1
        simp [encodeSSNForTransmission, h0, h1, h2,
          encodeForTransmission_ne_nil hne]
    · simp [encodeSSNForTransmission, h0, h1]

theorem c4_ssn_witness :
    encodeSSNForTransmission (str "") = ⟨[], some "SSN is required"⟩ ∧
    encodeSSNForTransmission (str "12345") = ⟨[], some "SSN must be 9 digits"⟩ ∧
    encodeSSNForTransmission (str "000000000") = ⟨[], some "Invalid SSN format"⟩ ∧
    encodeSSNForTransmission (str "123-45-6789") =
      ⟨encodeForTransmission (cleanSSN (str "123-45-6789")), none⟩ :=
  ⟨(c4_ssn_pipeline (str "")).1 (by decide),
   (c4_ssn_pipeline (str "12345")).2.1 (by decide) (by decide),
   (c4_ssn_pipeline (str "000000000")).2.2.1 (by decide) (by decide) (by decide),
   (c4_ssn_pipeline (str "123-45-6789")).2.2.2.1 (by decide) (by decide) (by decide)⟩

/-- C10: a non-empty input with no digit characters is rejected with
`"SSN must be 9 digits"`, not `"SSN is required"`: the emptiness check reads
the raw input before normalization. -/
theorem c10_no_digit_input_length_error (ssn : List Nat) (h0 : ssn ≠ [])
    (h : ∀ c ∈ ssn, isDigitCode c = false) :
    encodeSSNForTransmission ssn = ⟨[], some "SSN must be 9 digits"⟩ := by
  have hc : cleanSSN ssn = [] := by
    unfold cleanSSN
    rw [if_neg h0]
    simp only [List.filter_eq_nil_iff]
    intro a ha
    simp [h a ha]
  simp [encodeSSNForTransmission, h0, hc]

theorem c10_no_digit_witness :
    encodeSSNForTransmission (str "---") = ⟨[], some "SSN must be 9 digits"⟩ :=
  c10_no_digit_input_length_error (str "---") (by decide) (by decide)



theorem hexVal_hexDigitUpperCode {d : Nat} (h : d < 16) :
    hexVal (hexDigitUpperCode d) = some d := by
  revert d; decide

theorem escHexByte_percent {b : Nat} (h : b < 256) :
    escHexByte (hexDigitUpperCode (b / 16)) (hexDigitUpperCode (b % 16)) =
      some b := by
  unfold escHexByte
  rw [hexVal_hexDigitUpperCode (by omega), hexVal_hexDigitUpperCode (by omega)]
  simp only [Option.some.injEq]
  omega

theorem uriTokens_percentByte {b : Nat} (h : b < 256) (t : List Nat) :
    uriTokens (percentByte b ++ t) =
      Option.map (fun ts => UriTok.esc b :: ts) (uriTokens t) := by
  show uriTokens (37 :: hexDigitUpperCode (b / 16) ::
    hexDigitUpperCode (b % 16) :: t) = _
  rw [uriTokens.eq_2, escHexByte_percent h]

theorem uriTokens_expandBytes {bs : List Nat} (h : ∀ b ∈ bs, b < 256)
    (t : List Nat) :
    uriTokens (expandBytes bs ++ t) =
      Option.map (fun ts => bs.map UriTok.esc ++ ts) (uriTokens t) := by
  induction bs with
  | nil => simp [expandBytes]
  | cons b bs ih =>
    rw [expandBytes, List.append_assoc,
      uriTokens_percentByte (h b (by simp)) _,
      ih (fun x hx => h x (by simp [hx]))]
    cases uriTokens t <;> simp

theorem unreservedCode_ne_37 {n : Nat} (h : unreservedCode n = true) :
    n ≠ 37 := by
  intro he; subst he; exact absurd h (by decide)

theorem uriTokens_raw {n : Nat} (h : n ≠ 37) (t : List Nat) :
    uriTokens (n :: t) =
      Option.map (fun ts => UriTok.raw n :: ts) (uriTokens t) :=
  uriTokens.eq_4 n t (fun _ _ _ hc _ => h hc) (fun hc => h hc)

theorem utf8Encode_lt {n : Nat} (h : n < 0x110000) :
    ∀ b ∈ utf8Encode n, b < 256 := by
  intro b hb
  unfold utf8Encode at hb
  split_ifs at hb <;> simp at hb <;> omega

theorem uriTokens_encChar {n : Nat} (h : scalarValue n = true) (t : List Nat) :
    uriTokens (encChar n ++ t) =
      Option.map (fun ts => encToks n ++ ts) (uriTokens t) := by
  have hlt : n < 0x110000 := by
    simp [scalarValue] at h; omega
  by_cases hu : unreservedCode n
  · rw [show encChar n ++ t = n :: t by simp [encChar, hu],
      uriTokens_raw (unreservedCode_ne_37 hu)]
    simp [encToks, hu]
  · rw [show encChar n = expandBytes (utf8Encode n) by simp [encChar, hu],
      uriTokens_expandBytes (utf8Encode_lt hlt)]
    simp [encToks, hu]

theorem uriTokens_encodeSeq {s : List Nat}
    (h : ∀ c ∈ s, scalarValue c = true) :
    uriTokens (encodeSeq s) = some (encToksSeq s) := by
  induction s with
  | nil => rfl
  | cons n rest ih =>
    rw [encodeSeq, uriTokens_encChar (h n (by simp)),
      ih (fun c hc => h c (by simp [hc]))]
    rfl


theorem scalarValue_facts {n : Nat} (h : scalarValue n = true) :
    n < 0x110000 ∧ (n < 0xD800 ∨ 0xE000 ≤ n) := by
  simp [scalarValue, Decidable.not_and_iff_or_not] at h
  omega

theorem inRange_true {lo hi b : Nat} (h1 : lo ≤ b) (h2 : b < hi) :
    inRange lo hi b = true := by
  simp [inRange]; omega

theorem uriAssembleGo_encToks {n : Nat} (h : scalarValue n = true)
    (ts : List UriTok) :
    uriAssembleGo UtfState.clean (encToks n ++ ts) =
      Option.map (fun r => n :: r) (uriAssembleGo UtfState.clean ts) := by
  obtain ⟨hlt, hsur⟩ := scalarValue_facts h
  by_cases hu : unreservedCode n
  · rw [show encToks n ++ ts = UriTok.raw n :: ts by simp [encToks, hu]]
    rw [uriAssembleGo.eq_2]
  · rw [show encToks n = (utf8Encode n).map UriTok.esc by simp [encToks, hu]]
    rcases Nat.lt_or_ge n 0x80 with h1 | h1
    · rw [show utf8Encode n = [n] by unfold utf8Encode; rw [if_pos h1]]
      show uriAssembleGo UtfState.clean (UriTok.esc n :: ts) = _
      rw [uriAssembleGo.eq_3, if_pos h1]
    · rcases Nat.lt_or_ge n 0x800 with h2 | h2
      · rw [show utf8Encode n = [0xC0 + n / 0x40, 0x80 + n % 0x40] by
          unfold utf8Encode; rw [if_neg (by omega), if_pos h2]]
        show uriAssembleGo UtfState.clean (UriTok.esc (0xC0 + n / 0x40) ::
          UriTok.esc (0x80 + n % 0x40) :: ts) = _
        rw [uriAssembleGo.eq_3, if_neg (by omega), if_neg (by omega),
          if_pos (by omega), uriAssembleGo.eq_4,
          if_pos (inRange_true (by omega) (by omega))]
        have hv : (0xC0 + n / 0x40 - 0xC0) * 0x40 + (0x80 + n % 0x40 - 0x80)
            = n := by omega
        rw [hv]
      · rcases Nat.lt_or_ge n 0x10000 with h3 | h3
        · rw [show utf8Encode n =
              [0xE0 + n / 0x1000, 0x80 + n / 0x40 % 0x40, 0x80 + n % 0x40] by
            unfold utf8Encode
            rw [if_neg (by omega), if_neg (by omega), if_pos h3]]
          show uriAssembleGo UtfState.clean
            (UriTok.esc (0xE0 + n / 0x1000) ::
             UriTok.esc (0x80 + n / 0x40 % 0x40) ::
             UriTok.esc (0x80 + n % 0x40) :: ts) = _
          rw [uriAssembleGo.eq_3, if_neg (by omega), if_neg (by omega),
            if_neg (by omega), if_pos (by omega)]
          rw [uriAssembleGo.eq_5]
          have hcont : inRange (lead3lo (0xE0 + n / 0x1000))
              (lead3hi (0xE0 + n / 0x1000)) (0x80 + n / 0x40 % 0x40) = true := by
            unfold lead3lo lead3hi
            split_ifs with he1 he2 he2 <;>
              refine inRange_true (by omega) (by omega)
          rw [if_pos hcont, uriAssembleGo.eq_4,
            if_pos (inRange_true (by omega) (by omega))]
          have hv : ((0xE0 + n / 0x1000 - 0xE0) * 0x40 +
              (0x80 + n / 0x40 % 0x40 - 0x80)) * 0x40 +
              (0x80 + n % 0x40 - 0x80) = n := by omega
          rw [hv]
        · rw [show utf8Encode n =
              [0xF0 + n / 0x40000, 0x80 + n / 0x1000 % 0x40,
               0x80 + n / 0x40 % 0x40, 0x80 + n % 0x40] by
            unfold utf8Encode
            rw [if_neg (by omega), if_neg (by omega), if_neg (by omega)]]
          show uriAssembleGo UtfState.clean
            (UriTok.esc (0xF0 + n / 0x40000) ::
             UriTok.esc (0x80 + n / 0x1000 % 0x40) ::
             UriTok.esc (0x80 + n / 0x40 % 0x40) ::
             UriTok.esc (0x80 + n % 0x40) :: ts) = _
          rw [uriAssembleGo.eq_3, if_neg (by omega), if_neg (by omega),
            if_neg (by omega), if_neg (by omega), if_pos (by omega)]
          rw [uriAssembleGo.eq_6]
          have hcont : inRange (lead4lo (0xF0 + n / 0x40000))
              (lead4hi (0xF0 + n / 0x40000)) (0x80 + n / 0x1000 % 0x40) = true := by
            unfold lead4lo lead4hi
            split_ifs with he1 he2 he2 <;>
              refine inRange_true (by omega) (by omega)
          rw [if_pos hcont, uriAssembleGo.eq_5,
            if_pos (inRange_true (by omega) (by omega)),
            uriAssembleGo.eq_4,
            if_pos (inRange_true (by omega) (by omega))]
          have hv : (((0xF0 + n / 0x40000 - 0xF0) * 0x40 +
              (0x80 + n / 0x1000 % 0x40 - 0x80)) * 0x40 +
              (0x80 + n / 0x40 % 0x40 - 0x80)) * 0x40 +
              (0x80 + n % 0x40 - 0x80) = n := by omega
          rw [hv]

theorem uriAssemble_encToksSeq {s : List Nat}
    (h : ∀ c ∈ s, scalarValue c = true) :
    uriAssemble (encToksSeq s) = some s := by
  induction s with
  | nil => rfl
  | cons n rest ih =>
    unfold uriAssemble at ih ⊢
    rw [encToksSeq, uriAssembleGo_encToks (h n (by simp)),
      ih (fun c hc => h c (by simp [hc]))]
    rfl

theorem decode_encodeSeq {s : List Nat}
    (h : ∀ c ∈ s, scalarValue c = true) :
    decodeURIComponentOpt (encodeSeq s) = some s := by
  unfold decodeURIComponentOpt
  rw [uriTokens_encodeSeq h]
  exact uriAssemble_encToksSeq h


theorem b64Index_b64Code {i : Nat} (h : i < 64) :
    b64Index (b64Code i) = some i := by
  revert i; decide

theorem b64Code_ne_61 {i : Nat} (h : i < 64) : b64Code i ≠ 61 := by
  revert i; decide

theorem b64Whitespace_b64Code {i : Nat} (h : i < 64) :
    b64Whitespace (b64Code i) = false := by
  revert i; decide

theorem base64Encode_no_ws {bytes : List Nat} (h : ∀ b ∈ bytes, b < 256) :
    ∀ a ∈ base64Encode bytes, b64Whitespace a = false := by
  induction bytes using base64Encode.induct with
  | case1 => simp [base64Encode]
  | case2 a =>
    have ha := h a (by simp)
    intro x hx
    simp [base64Encode] at hx
    rcases hx with hx | hx | hx <;> subst hx <;>
      first
      | exact b64Whitespace_b64Code (by omega)
      | decide
  | case3 a b =>
    have ha := h a (by simp)
    have hb := h b (by simp)
    intro x hx
    simp [base64Encode] at hx
    rcases hx with hx | hx | hx | hx <;> subst hx <;>
      first
      | exact b64Whitespace_b64Code (by omega)
      | decide
  | case4 a b c rest ih =>
    have ha := h a (by simp)
    have hb := h b (by simp)
    have hc := h c (by simp)
    intro x hx
    simp only [base64Encode, List.mem_cons] at hx
    rcases hx with hx | hx | hx | hx | hx
    · subst hx; exact b64Whitespace_b64Code (by omega)
    · subst hx; exact b64Whitespace_b64Code (by omega)
    · subst hx; exact b64Whitespace_b64Code (by omega)
    · subst hx; exact b64Whitespace_b64Code (by omega)
    · exact ih (fun y hy => h y (by simp [hy])) x hx

theorem base64Encode_length_mod4 (bytes : List Nat) :
    (base64Encode bytes).length % 4 = 0 := by
  induction bytes using base64Encode.induct with
  | case1 => rfl
  | case2 a => simp [base64Encode]
  | case3 a b => simp [base64Encode]
  | case4 a b c rest ih =>
    simp only [base64Encode, List.length_cons]
    omega

theorem base64Encode_length_ge {u : List Nat} (h : u ≠ []) :
    4 ≤ (base64Encode u).length := by
  match u with
  | [] => exact absurd rfl h
  | [a] => simp [base64Encode]
  | [a, b] => simp [base64Encode]
  | a :: b :: c :: rest => simp [base64Encode]

theorem dropPad1_append {l t : List Nat} (h : t ≠ []) :
    dropPad1 (l ++ t) = l ++ dropPad1 t := by
  unfold dropPad1
  rw [List.getLast?_append_of_ne_nil l h]
  split_ifs with hg
  · rw [List.dropLast_append_of_ne_nil l h]
  · rfl

theorem dropPad1_length_ge (t : List Nat) :
    t.length - 1 ≤ (dropPad1 t).length := by
  unfold dropPad1
  split_ifs <;> simp

theorem stripPad_append {l t : List Nat} (h : 2 ≤ t.length) :
    stripPad (l ++ t) = l ++ stripPad t := by
  have h1 : t ≠ [] := by intro hc; subst hc; simp at h
  have h2 : dropPad1 t ≠ [] := by
    intro hc
    have := dropPad1_length_ge t
    rw [hc] at this
    simp at this
    omega
  unfold stripPad
  rw [dropPad1_append h1, dropPad1_append h2]


theorem dropPad1_of_ne {l : List Nat} {z : Nat} (hg : l.getLast? = some z)
    (hz : z ≠ 61) : dropPad1 l = l := by
  unfold dropPad1
  rw [hg, if_neg (by simp [hz])]

theorem atobCore_stripPad_base64Encode {bytes : List Nat}
    (h : ∀ b ∈ bytes, b < 256) :
    atobCore (stripPad (base64Encode bytes)) = some bytes := by
  induction bytes using base64Encode.induct with
  | case1 => rfl
  | case2 a =>
    have ha := h a (by simp)
    show atobCore (stripPad
      [b64Code (a / 4), b64Code (a % 4 * 16), 61, 61]) = some [a]
    rw [show stripPad [b64Code (a / 4), b64Code (a % 4 * 16), 61, 61] =
      [b64Code (a / 4), b64Code (a % 4 * 16)] from rfl]
    rw [atobCore.eq_3, b64Index_b64Code (by omega), b64Index_b64Code (by omega)]
    simp only [Option.some.injEq, List.cons.injEq, and_true]
    omega
  | case3 a b =>
    have ha := h a (by simp)
    have hb := h b (by simp)
    show atobCore (stripPad [b64Code (a / 4), b64Code (a % 4 * 16 + b / 16),
      b64Code (b % 16 * 4), 61]) = some [a, b]
    have hz : b64Code (b % 16 * 4) ≠ 61 :=
      b64Code_ne_61 (show b % 16 * 4 < 64 by omega)
    rw [show stripPad [b64Code (a / 4), b64Code (a % 4 * 16 + b / 16),
        b64Code (b % 16 * 4), 61] = [b64Code (a / 4),
        b64Code (a % 4 * 16 + b / 16), b64Code (b % 16 * 4)] from by
      unfold stripPad
      rw [show dropPad1 [b64Code (a / 4), b64Code (a % 4 * 16 + b / 16),
        b64Code (b % 16 * 4), 61] = [b64Code (a / 4),
        b64Code (a % 4 * 16 + b / 16), b64Code (b % 16 * 4)] from rfl]
      exact dropPad1_of_ne rfl hz]
    rw [atobCore.eq_4, b64Index_b64Code (by omega),
      b64Index_b64Code (by omega), b64Index_b64Code (by omega)]
    simp only [Option.some.injEq, List.cons.injEq, and_true]
    constructor <;> omega
  | case4 a b c rest ih =>
    have ha := h a (by simp)
    have hb := h b (by simp)
    have hc := h c (by simp)
    have hz : b64Code (c % 64) ≠ 61 :=
      b64Code_ne_61 (show c % 64 < 64 by omega)
    rw [show base64Encode (a :: b :: c :: rest) =
      [b64Code (a / 4), b64Code (a % 4 * 16 + b / 16),
       b64Code (b % 16 * 4 + c / 64), b64Code (c % 64)] ++
        base64Encode rest from rfl]
    by_cases hrest : rest = []
    · subst hrest
      rw [show base64Encode ([] : List Nat) = [] from rfl, List.append_nil]
      have hd : dropPad1 [b64Code (a / 4), b64Code (a % 4 * 16 + b / 16),
          b64Code (b % 16 * 4 + c / 64), b64Code (c % 64)] =
          [b64Code (a / 4), b64Code (a % 4 * 16 + b / 16),
           b64Code (b % 16 * 4 + c / 64), b64Code (c % 64)] :=
        dropPad1_of_ne (show List.getLast? [b64Code (a / 4),
          b64Code (a % 4 * 16 + b / 16), b64Code (b % 16 * 4 + c / 64),
          b64Code (c % 64)] = some (b64Code (c % 64)) from rfl) hz
      rw [show stripPad [b64Code (a / 4), b64Code (a % 4 * 16 + b / 16),
          b64Code (b % 16 * 4 + c / 64), b64Code (c % 64)] =
          [b64Code (a / 4), b64Code (a % 4 * 16 + b / 16),
           b64Code (b % 16 * 4 + c / 64), b64Code (c % 64)] from by
        unfold stripPad
        rw [hd, hd]]
      rw [atobCore.eq_5, b64Index_b64Code (by omega),
        b64Index_b64Code (by omega), b64Index_b64Code (by omega),
        b64Index_b64Code (by omega)]
      rw [show atobCore ([] : List Nat) = some [] from rfl]
      simp only [Option.some.injEq, List.cons.injEq, and_true]
      refine ⟨by omega, by omega, by omega⟩
    · rw [stripPad_append (le_trans (by omega)
        (base64Encode_length_ge hrest))]
      simp only [List.cons_append, List.nil_append]
      rw [atobCore.eq_5, b64Index_b64Code (by omega),
        b64Index_b64Code (by omega), b64Index_b64Code (by omega),
        b64Index_b64Code (by omega)]
      rw [ih (fun y hy => h y (by simp [hy]))]
      simp only [Option.some.injEq, List.cons.injEq]
      refine ⟨by omega, by omega, by omega, by trivial⟩


theorem atobOpt_base64Encode {bytes : List Nat} (h : ∀ b ∈ bytes, b < 256) :
    atobOpt (base64Encode bytes) = some bytes := by
  unfold atobOpt
  have hf : (base64Encode bytes).filter (fun c => !b64Whitespace c) =
      base64Encode bytes := by
    rw [List.filter_eq_self]
    intro a ha
    simp [base64Encode_no_ws h a ha]
  simp only [hf]
  rw [if_pos (base64Encode_length_mod4 bytes)]
  exact atobCore_stripPad_base64Encode h

theorem unreservedCode_lt {n : Nat} (h : unreservedCode n = true) : n < 128 := by
  simp [unreservedCode] at h
  rcases h with ((((((((h | h) | h) | h) | h) | h) | h) | h) | h) <;> omega

theorem hexDigitUpperCode_lt {d : Nat} (h : d < 16) :
    hexDigitUpperCode d < 256 := by
  revert d; decide

theorem expandBytes_lt {bs : List Nat} (h : ∀ b ∈ bs, b < 256) :
    ∀ a ∈ expandBytes bs, a < 256 := by
  induction bs with
  | nil => simp [expandBytes]
  | cons b bs ih =>
    intro a ha
    have hb := h b (by simp)
    simp only [expandBytes, percentByte, List.mem_append, List.mem_cons] at ha
    rcases ha with (ha | ha | ha | ha) | ha
    · omega
    · subst ha; exact hexDigitUpperCode_lt (by omega)
    · subst ha; exact hexDigitUpperCode_lt (by omega)
    · simp at ha
    · exact ih (fun y hy => h y (by simp [hy])) a ha

theorem encChar_lt {n : Nat} (h : scalarValue n = true) :
    ∀ a ∈ encChar n, a < 256 := by
  intro a ha
  by_cases hu : unreservedCode n
  · simp [encChar, hu] at ha
    subst ha
    exact lt_trans (unreservedCode_lt hu) (by omega)
  · simp only [encChar, hu, if_false, Bool.false_eq_true] at ha
    exact expandBytes_lt (utf8Encode_lt (scalarValue_facts h).1) a ha

theorem encodeSeq_lt {s : List Nat} (h : ∀ c ∈ s, scalarValue c = true) :
    ∀ a ∈ encodeSeq s, a < 256 := by
  induction s with
  | nil => simp [encodeSeq]
  | cons n rest ih =>
    intro a ha
    simp only [encodeSeq, List.mem_append] at ha
    rcases ha with ha | ha
    · exact encChar_lt (h n (by simp)) a ha
    · exact ih (fun c hc => h c (by simp [hc])) a ha

theorem encodeSeq_ne_nil {s : List Nat} (h : s ≠ []) : encodeSeq s ≠ [] := by
  cases s with
  | nil => exact absurd rfl h
  | cons n rest =>
    simp only [encodeSeq]
    intro hc
    rcases List.append_eq_nil.mp hc with ⟨h1, _⟩
    exact encChar_ne_nil n h1

theorem encodeURIComponentOpt_eq {s : List Nat}
    (h : ∀ c ∈ s, scalarValue c = true) :
    encodeURIComponentOpt s = some (encodeSeq s) := by
  induction s with
  | nil => rfl
  | cons n rest ih =>
    simp only [encodeURIComponentOpt]
    rw [if_pos (h n (by simp)), ih (fun c hc => h c (by simp [hc]))]
    rfl

/-- C3: for every string within the transform's supported character set
(Unicode scalar values, i.e. no lone surrogates),
`decodeFromTransmission (encodeForTransmission s) = s`. -/
theorem c3_encode_decode_round_trip (s : List Nat)
    (h : ∀ c ∈ s, scalarValue c = true) :
    decodeFromTransmission (encodeForTransmission s) = s := by
  by_cases hs : s = []
  · subst hs; rfl
  · have hall : (encodeSeq s).all (fun c => decide (c < 256)) = true := by
      rw [List.all_eq_true]
      intro a ha
      simpa using encodeSeq_lt h a ha
    have htry : tryEncode s = some (base64Encode (encodeSeq s)) := by
      unfold tryEncode btoaOpt
      rw [encodeURIComponentOpt_eq h]
      show (if (encodeSeq s).all (fun c => decide (c < 256)) = true
        then some (base64Encode (encodeSeq s)) else none) = _
      rw [if_pos hall]
    have hE : encodeForTransmission s = base64Encode (encodeSeq s) := by
      unfold encodeForTransmission encodeForTransmissionLog
      rw [if_neg hs, htry]
    have hne : base64Encode (encodeSeq s) ≠ [] :=
      base64Encode_ne_nil (encodeSeq_ne_nil hs)
    have hdec : tryDecode (base64Encode (encodeSeq s)) = some s := by
      unfold tryDecode
      rw [atobOpt_base64Encode (encodeSeq_lt h)]
      exact decode_encodeSeq h
    rw [hE]
    unfold decodeFromTransmission decodeFromTransmissionLog
    rw [if_neg hne, hdec]

theorem c3_round_trip_witness :
    (∀ c ∈ str "Jane Doe (client), SSN 123-45-6789!", scalarValue c = true) ∧
    decodeFromTransmission (encodeForTransmission
      (str "Jane Doe (client), SSN 123-45-6789!")) =
      str "Jane Doe (client), SSN 123-45-6789!" :=
  ⟨by decide, c3_encode_decode_round_trip _ (by decide)⟩


/-- C7: the codec never throws: each function returns either the transformed
value (with nothing logged) or, on internal transform failure, its input
unchanged next to one logged diagnostic; empty input maps deterministically
to the empty string. -/
theorem c7_codec_never_throws :
    (encodeForTransmission [] = [] ∧ decodeFromTransmission [] = []) ∧
    (∀ s, (∃ r, tryEncode s = some r ∧ encodeForTransmissionLog s = (r, [])) ∨
      (tryEncode s = none ∧ encodeForTransmissionLog s =
        (s, ["[CLIENT_ENCRYPTION] Failed to encode data for transmission"]))) ∧
    (∀ s, (∃ r, tryDecode s = some r ∧ decodeFromTransmissionLog s = (r, [])) ∨
      (tryDecode s = none ∧ decodeFromTransmissionLog s =
        (s, ["[CLIENT_ENCRYPTION] Failed to decode data"]))) := by
  refine ⟨⟨rfl, rfl⟩, ?_, ?_⟩
  · intro s
    by_cases hs : s = []
    · subst hs
      exact Or.inl ⟨[], rfl, rfl⟩
    · cases he : tryEncode s with
      | some r =>
        exact Or.inl ⟨r, rfl, by
          unfold encodeForTransmissionLog
          rw [if_neg hs, he]⟩
      | none =>
        exact Or.inr ⟨rfl, by
          unfold encodeForTransmissionLog
          rw [if_neg hs, he]⟩
  · intro s
    by_cases hs : s = []
    · subst hs
      exact Or.inl ⟨[], rfl, rfl⟩
    · cases he : tryDecode s with
      | some r =>
        exact Or.inl ⟨r, rfl, by
          unfold decodeFromTransmissionLog
          rw [if_neg hs, he]⟩
      | none =>
        exact Or.inr ⟨rfl, by
          unfold decodeFromTransmissionLog
          rw [if_neg hs, he]⟩

/-! ### Behavioural checks of the embedding

The first vector is the example given in the source file's own doc comment:
`"123-45-6789" -> "MTIzLTQ1LTY3ODk="`. -/

theorem codec_doc_vector :
    encodeForTransmission (str "123-45-6789") = str "MTIzLTQ1LTY3ODk=" := by
  decide

theorem codec_decode_doc_vector :
    decodeFromTransmission (str "MTIzLTQ1LTY3ODk=") = str "123-45-6789" := by
  decide

theorem decode_rejects_bad_base64 :
    tryDecode (str "!!!") = none ∧
    decodeFromTransmission (str "!!!") = str "!!!" := by
  constructor <;> decide

theorem decode_rejects_overlong_utf8 :
    decodeURIComponentOpt (str "%E0%9F%80") = none := by
  decide

theorem decode_rejects_surrogate_utf8 :
    decodeURIComponentOpt (str "%ED%A0%80") = none := by
  decide

theorem decode_rejects_out_of_range_utf8 :
    decodeURIComponentOpt (str "%F4%90%80%80") = none := by
  decide

theorem decode_rejects_truncated_escape :
    decodeURIComponentOpt (str "%C2") = none ∧
    decodeURIComponentOpt (str "%GG") = none := by
  constructor <;> decide

theorem encode_throws_on_lone_surrogate :
    tryEncode [0xD800] = none := by
  decide

end Backup
